import Mathlib

/-
Verification of the automation-run execution pipeline of the StackBill
deployment backend.  The definitions below are a shallow embedding of the
JavaScript sources:

  * `backend/services/playbookService.js` — credential parsing, output
    classification, process close/error handlers;
  * the legacy monolithic server (output parsing close handler with the
    fallback credential scan, `cleanupInventory`);
  * `backend/services/inventoryService.js` — inventory generation.

JavaScript strings are modelled as `List Char`; JavaScript objects used as
string-keyed maps are modelled as association lists with the insertion-order
semantics of object property assignment (update in place, append when new).
-/

/-- Character list representing a JavaScript string. -/
abbrev Str : Type := List Char

/-- Convert a Lean string literal to the character-list representation. -/
def str (s : String) : Str := s.toList

/-- The JavaScript whitespace class `\s`, restricted to the code points that
can actually occur in the engine's ASCII/Latin-1 output. -/
def isJsSpace (c : Char) : Bool :=
  c == ' ' || c == '\t' || c == '\n' || c == '\r' ||
  c == Char.ofNat 11 || c == Char.ofNat 12 || c == Char.ofNat 160

/-- Model of JavaScript `String.prototype.trim`. -/
def trimStr (s : Str) : Str :=
  ((s.dropWhile isJsSpace).reverse.dropWhile isJsSpace).reverse

/-- Model of JavaScript `String.prototype.split` with a one-character
separator: `"a,b".split(',')`.  Always returns at least one (possibly empty)
piece. -/
def splitChar (ch : Char) : Str → List Str
  | [] => [[]]
  | c :: rest =>
    if c = ch then [] :: splitChar ch rest
    else
      match splitChar ch rest with
      | [] => [[c]]
      | l :: ls => (c :: l) :: ls

/-- Boolean string-prefix test (model of `String.prototype.startsWith` and of
anchored regex literals). -/
def isPfx : Str → Str → Bool
  | [], _ => true
  | _ :: _, [] => false
  | a :: as, b :: bs => a == b && isPfx as bs

/-- ASCII lower-casing of one character; on the service names and credential
keys appearing in the engine output this coincides with JavaScript
`String.prototype.toLowerCase`. -/
def asciiLower (c : Char) : Char :=
  if 65 ≤ c.toNat ∧ c.toNat ≤ 90 then Char.ofNat (c.toNat + 32) else c

/-- Model of `String.prototype.toLowerCase` (ASCII fragment). -/
def lowerStr (s : Str) : Str := s.map asciiLower

/-- First-match lookup in an association list, the observable behaviour of
reading a property of a JavaScript object built by repeated assignment. -/
def alookup {α : Type} : List (Str × α) → Str → Option α
  | [], _ => none
  | (k, v) :: rest, key => if k = key then some v else alookup rest key

/-- Property assignment `o[k] = v` on a JavaScript object: update in place if
the key exists, append otherwise. -/
def setVal {α : Type} : List (Str × α) → Str → α → List (Str × α)
  | [], k, v => [(k, v)]
  | (k', v') :: rest, k, v =>
    if k' = k then (k', v) :: rest else (k', v') :: setVal rest k v

/-- Per-service credential key/value map (`{username: ..., password: ...}`). -/
abbrev KVList : Type := List (Str × Str)

/-- The accumulated credentials object: service name to key/value map. -/
abbrev CredMap : Type := List (Str × KVList)

/-- Model of the object spread `{...a, ...b}`: keys of `a` first (values
overridden by `b` where present), then the keys of `b` not in `a`. -/
def mergeObj (a b : KVList) : KVList :=
  a.map (fun kv => (kv.1, (alookup b kv.1).getD kv.2)) ++
    b.filter (fun kv => (alookup a kv.1).isNone)

/-- `if (!credentials[svc]) credentials[svc] = {}` from `parseCredentials`. -/
def credEnsure (m : CredMap) (svc : Str) : CredMap :=
  match alookup m svc with
  | some _ => m
  | none => m ++ [(svc, [])]

/-- `if (!credentials[svc]) credentials[svc] = {}; credentials[svc][k] = v`. -/
def credSetKV (m : CredMap) (svc k v : Str) : CredMap :=
  match alookup m svc with
  | some kv => setVal m svc (setVal kv k v)
  | none => m ++ [(svc, [(k, v)])]

/-- One `CREDENTIALS|...` segment: `segment.split('=')`, destructure the
first two pieces into `[k, v]`, and record `k.trim() -> v.trim()` when both
are truthy (`playbookService.js` lines 28-33). -/
def applyCredSegment (svc : Str) (m : CredMap) (seg : Str) : CredMap :=
  match splitChar '=' seg with
  | k :: v :: _ => if k ≠ [] ∧ v ≠ [] then credSetKV m svc (trimStr k) (trimStr v) else m
  | _ => m

/-- Case-insensitive anchored pattern `^<lit>\s*(.+)$` from the fixed
credential-line regexes of `parseCredentials`.  Returns the captured group.
(The lines fed to it never contain a newline, so `.` never meets one.) -/
def matchPatCI (lit : Str) (t : Str) : Option Str :=
  if lowerStr (t.take lit.length) = lowerStr lit then
    match (t.drop lit.length).dropWhile isJsSpace with
    | [] =>
      -- remainder is all whitespace: `\s*` backtracks one step so that `.+`
      -- can take the final whitespace character; empty remainder fails
      match t.drop lit.length with
      | [] => none
      | raw => some [raw.getLastD ' ']
    | g => some g
  else none

/-- One line of `parseCredentials` (`playbookService.js` lines 19-62):
the structured `CREDENTIALS|service|k=v|...` branch, else the fixed
human-readable patterns. -/
def parseCredLine (m : CredMap) (line : Str) : CredMap :=
  let t := trimStr line
  if isPfx (str "CREDENTIALS|") t then
    match (splitChar '|' t).get? 1 with
    | none => m
    | some p1 =>
      let svc := lowerStr p1
      if svc = [] then m
      else ((splitChar '|' t).drop 2).foldl (applyCredSegment svc) (credEnsure m svc)
  else
    match matchPatCI (str "MySQL user:") t with
    | some g => credSetKV m (str "mysql") (str "username") (trimStr g)
    | none =>
    match matchPatCI (str "MySQL password:") t with
    | some g => credSetKV m (str "mysql") (str "password") (trimStr g)
    | none =>
    match matchPatCI (str "MongoDB admin user:") t with
    | some g => credSetKV m (str "mongodb") (str "username") (trimStr g)
    | none =>
    match matchPatCI (str "MongoDB admin password:") t with
    | some g => credSetKV m (str "mongodb") (str "password") (trimStr g)
    | none =>
    match matchPatCI (str "MongoDB credentials stored in:") t with
    | some g => credSetKV m (str "mongodb") (str "path") (trimStr g)
    | none =>
    match matchPatCI (str "RabbitMQ Username:") t with
    | some g => credSetKV m (str "rabbitmq") (str "username") (trimStr g)
    | none =>
    match matchPatCI (str "RabbitMQ Password:") t with
    | some g => credSetKV m (str "rabbitmq") (str "password") (trimStr g)
    | none => m

/-- `parseCredentials(text, service, credentials)` from
`playbookService.js` lines 16-63.  The `service` argument is accepted but
unused, exactly as in the source. -/
def parseCredentials (text : Str) (_service : Option Str) (m : CredMap) : CredMap :=
  (splitChar '\n' text).foldl parseCredLine m

/-- JSON values as produced by `JSON.parse`. -/
inductive Json where
  | null : Json
  | bool (b : Bool) : Json
  | num (raw : Str) : Json
  | jstr (s : Str) : Json
  | arr (elems : List Json) : Json
  | obj (fields : List (Str × Json)) : Json

/-- JSON whitespace. -/
def jsonWs (c : Char) : Bool := c == ' ' || c == '\t' || c == '\n' || c == '\r'

/-- Drop leading JSON whitespace. -/
def skipWs (s : Str) : Str := s.dropWhile jsonWs

/-- Hexadecimal digit value. -/
def hexVal (c : Char) : Option Nat :=
  if '0' ≤ c ∧ c ≤ '9' then some (c.toNat - 48)
  else if 'a' ≤ c ∧ c ≤ 'f' then some (c.toNat - 87)
  else if 'A' ≤ c ∧ c ≤ 'F' then some (c.toNat - 55)
  else none

/-- Single-character JSON string escapes. -/
def jsonEscape (c : Char) : Option Char :=
  if c = '"' then some '"'
  else if c = '\\' then some '\\'
  else if c = '/' then some '/'
  else if c = 'b' then some (Char.ofNat 8)
  else if c = 'f' then some (Char.ofNat 12)
  else if c = 'n' then some '\n'
  else if c = 'r' then some '\r'
  else if c = 't' then some '\t'
  else none

/-- Parse the rest of a JSON string (after the opening quote); returns the
decoded content and the remaining input.  (`\uXXXX` is decoded to the code
point directly; surrogate-pair recombination is not modelled, it cannot occur
in the engine output handled here.) -/
def jsonStringRest : Str → Option (Str × Str)
  | [] => none
  | '"' :: rest => some ([], rest)
  | '\\' :: 'u' :: h1 :: h2 :: h3 :: h4 :: rest =>
    match hexVal h1, hexVal h2, hexVal h3, hexVal h4 with
    | some a, some b, some c, some d =>
      (jsonStringRest rest).map
        (fun p => (Char.ofNat (((a * 16 + b) * 16 + c) * 16 + d) :: p.1, p.2))
    | _, _, _, _ => none
  | '\\' :: e :: rest =>
    (jsonEscape e).bind (fun c => (jsonStringRest rest).map (fun p => (c :: p.1, p.2)))
  | ['\\'] => none
  | c :: rest =>
    if c.toNat < 32 then none
    else (jsonStringRest rest).map (fun p => (c :: p.1, p.2))

/-- Take a maximal run of decimal digits. -/
def digitsTake (s : Str) : Str × Str := (s.takeWhile Char.isDigit, s.dropWhile Char.isDigit)

/-- Optional fraction and exponent of a JSON number, appended to the lexeme
accumulated so far. -/
def jsonFracExp (acc : Str) (s : Str) : Option (Str × Str) :=
  let step1 : Option (Str × Str) :=
    match s with
    | '.' :: r =>
      match digitsTake r with
      | ([], _) => none
      | (ds, r2) => some (acc ++ '.' :: ds, r2)
    | _ => some (acc, s)
  match step1 with
  | none => none
  | some (acc1, s1) =>
    match s1 with
    | 'e' :: r => jsonExpTail acc1 'e' r
    | 'E' :: r => jsonExpTail acc1 'E' r
    | _ => some (acc1, s1)
where
  jsonExpTail (acc1 : Str) (e : Char) (r : Str) : Option (Str × Str) :=
    let (sign, r1) : Str × Str :=
      match r with
      | '+' :: r' => (['+'], r')
      | '-' :: r' => (['-'], r')
      | _ => ([], r)
    match digitsTake r1 with
    | ([], _) => none
    | (ds, r2) => some (acc1 ++ e :: sign ++ ds, r2)

/-- Lex a JSON number at the head of the input; returns the raw lexeme. -/
def jsonNumberRest (s : Str) : Option (Str × Str) :=
  let (neg, s1) : Str × Str :=
    match s with
    | '-' :: r => (['-'], r)
    | _ => ([], s)
  match s1 with
  | '0' :: r => jsonFracExp (neg ++ ['0']) r
  | c :: _ =>
    if c.isDigit then
      match digitsTake s1 with
      | (ds, r2) => jsonFracExp (neg ++ ds) r2
    else none
  | [] => none

mutual

/-- Recursive-descent JSON value parser (fuel-indexed). -/
def jsonValue : Nat → Str → Option (Json × Str)
  | 0, _ => none
  | Nat.succ fuel, s =>
    match skipWs s with
    | [] => none
    | '{' :: rest => jsonObjRest fuel rest
    | '[' :: rest => jsonArrRest fuel rest
    | '"' :: rest => (jsonStringRest rest).map (fun p => (Json.jstr p.1, p.2))
    | 't' :: 'r' :: 'u' :: 'e' :: rest => some (Json.bool true, rest)
    | 'f' :: 'a' :: 'l' :: 's' :: 'e' :: rest => some (Json.bool false, rest)
    | 'n' :: 'u' :: 'l' :: 'l' :: rest => some (Json.null, rest)
    | s' => (jsonNumberRest s').map (fun p => (Json.num p.1, p.2))

/-- Object body after `{`. -/
def jsonObjRest : Nat → Str → Option (Json × Str)
  | 0, _ => none
  | Nat.succ fuel, s =>
    match skipWs s with
    | '}' :: rest => some (Json.obj [], rest)
    | _ => jsonMembers fuel s []

/-- Object members; duplicate keys behave like repeated property assignment
(last value wins, first position kept), as in `JSON.parse`. -/
def jsonMembers : Nat → Str → List (Str × Json) → Option (Json × Str)
  | 0, _, _ => none
  | Nat.succ fuel, s, acc =>
    match skipWs s with
    | '"' :: rest =>
      match jsonStringRest rest with
      | none => none
      | some (key, rest2) =>
        match skipWs rest2 with
        | ':' :: rest3 =>
          match jsonValue fuel rest3 with
          | none => none
          | some (v, rest4) =>
            match skipWs rest4 with
            | ',' :: rest5 => jsonMembers fuel rest5 (setVal acc key v)
            | '}' :: rest5 => some (Json.obj (setVal acc key v), rest5)
            | _ => none
        | _ => none
    | _ => none

/-- Array body after `[`. -/
def jsonArrRest : Nat → Str → Option (Json × Str)
  | 0, _ => none
  | Nat.succ fuel, s =>
    match skipWs s with
    | ']' :: rest => some (Json.arr [], rest)
    | _ => jsonElements fuel s []

/-- Array elements. -/
def jsonElements : Nat → Str → List Json → Option (Json × Str)
  | 0, _, _ => none
  | Nat.succ fuel, s, acc =>
    match jsonValue fuel s with
    | none => none
    | some (v, rest) =>
      match skipWs rest with
      | ',' :: rest2 => jsonElements fuel rest2 (acc ++ [v])
      | ']' :: rest2 => some (Json.arr (acc ++ [v]), rest2)
      | _ => none

end

/-- `JSON.parse`: parse a complete JSON document. -/
def parseJson (s : Str) : Option Json :=
  match jsonValue (2 * s.length + 4) s with
  | some (v, rest) => if skipWs rest = [] then some v else none
  | none => none

mutual

/-- JavaScript `String(v)` on a parsed JSON value.  For numbers the raw
lexeme stands in for the canonical double rendering (they agree on the
integral literals the engine emits). -/
def jsToString : Json → Str
  | Json.null => str "null"
  | Json.bool true => str "true"
  | Json.bool false => str "false"
  | Json.num raw => raw
  | Json.jstr s => s
  | Json.arr xs => jsArrayToString xs
  | Json.obj _ => str "[object Object]"

/-- `Array.prototype.toString`: elements joined by commas, `null` rendered
as the empty string. -/
def jsArrayToString : List Json → Str
  | [] => []
  | [Json.null] => []
  | [x] => jsToString x
  | Json.null :: y :: rest => ',' :: jsArrayToString (y :: rest)
  | x :: y :: rest => jsToString x ++ ',' :: jsArrayToString (y :: rest)

end

/-- `Array.isArray(msg) ? msg : [msg]`. -/
def jsArray (v : Json) : List Json :=
  match v with
  | Json.arr xs => xs
  | v => [v]

/-- The JSON branch of `parseAnsibleOutput` (`playbookService.js` lines
90-100): when the trimmed message parses as a JSON object with a `msg`
field, run `parseCredentials` over each contained message string. -/
def jsonMsgPass (tm : Str) (service : Option Str) (m : CredMap) : CredMap :=
  match parseJson tm with
  | some (Json.obj fields) =>
    match alookup fields (str "msg") with
    | some mv => (jsArray mv).foldl (fun acc v => parseCredentials (jsToString v) service acc) m
    | none => m
  | _ => m

/-- The typed progress events emitted by `parseAnsibleOutput`. -/
inductive PEvent where
  | task_result (status host task message line : Str)
      (credentialUpdate : Option (Str × KVList)) : PEvent
  | task (name line : Str) : PEvent
  | play (name line : Str) : PEvent
  | summary (status count line : Str) : PEvent
deriving DecidableEq

/-- The four task-result status keywords, in the regex alternation order of
`/^(ok|changed|fatal|skipping):\s*\[(.+?)\]\s*(.*)/`. -/
def statusResultWords : List Str := [str "ok", str "changed", str "fatal", str "skipping"]

/-- The lazy group `(.+?)\]`: at least one character, then everything up to
the first following `]`; fails when no such `]` exists.  Returns the captured
content and the input after the consumed `]`. -/
def lazyBracket : Str → Option (Str × Str)
  | [] => none
  | x :: tail =>
    if ']' ∈ tail then
      some (x :: tail.takeWhile (fun c => !(c == ']')),
            (tail.dropWhile (fun c => !(c == ']'))).drop 1)
    else none

/-- Anchored task-result match
`/^(ok|changed|fatal|skipping):\s*\[(.+?)\]\s*(.*)/`: returns
(status, host, remainder). -/
def matchTaskResult (line : Str) : Option (Str × Str × Str) :=
  match statusResultWords.find? (fun w => isPfx (w ++ [':']) line) with
  | none => none
  | some w =>
    match (line.drop (w.length + 1)).dropWhile isJsSpace with
    | '[' :: rest2 =>
      match lazyBracket rest2 with
      | some (host, rest3) => some (w, host, rest3.dropWhile isJsSpace)
      | none => none
    | _ => none

/-- Attempt `<marker>\s+\[(.+?)\]` at the head of the input. -/
def matchMarkerBracketAt (marker : Str) (s : Str) : Option Str :=
  if isPfx marker s then
    match s.drop marker.length with
    | c0 :: r0 =>
      if isJsSpace c0 then
        match (c0 :: r0).dropWhile isJsSpace with
        | '[' :: rest2 => (lazyBracket rest2).map (fun p => p.1)
        | _ => none
      else none
    | [] => none
  else none

/-- Unanchored leftmost match of `<marker>\s+\[(.+?)\]` (the `TASK [...]` and
`PLAY [...]` regexes): try every start position left to right. -/
def scanMarkerBracket (marker : Str) : Str → Option Str
  | [] => none
  | c :: rest =>
    match matchMarkerBracketAt marker (c :: rest) with
    | some name => some name
    | none => scanMarkerBracket marker rest

/-- The summary-counter keywords, in the alternation order of
`/(ok|changed|failed|unreachable)=(\d+)/`. -/
def summaryWords : List Str := [str "ok", str "changed", str "failed", str "unreachable"]

/-- Unanchored leftmost match of `/(ok|changed|failed|unreachable)=(\d+)/`:
returns (keyword, digit run). -/
def scanSummary : Str → Option (Str × Str)
  | [] => none
  | c :: rest =>
    match summaryWords.find? (fun w => isPfx w (c :: rest)) with
    | some w =>
      (match (c :: rest).drop w.length with
       | '=' :: r2 =>
         (let ds := r2.takeWhile Char.isDigit
          if ds.isEmpty then scanSummary rest else some (w, ds))
       | _ => scanSummary rest)
    | none => scanSummary rest

/-- `parseAnsibleOutput(line, currentTask, credentials, service)` from
`playbookService.js` lines 73-140, as a pure function returning the emitted
event (if any) and the updated credentials object. -/
def parseAnsibleOutput (line : Str) (currentTask : Str) (m : CredMap)
    (service : Option Str) : Option PEvent × CredMap :=
  match matchTaskResult line with
  | some (status, host, message) =>
    let tm0 := trimStr message
    let tm := if isPfx (str "=>") tm0 then (tm0.drop 2).dropWhile isJsSpace else tm0
    let m1 := parseCredentials tm service m
    let m2 := if isPfx (str "\x7b") tm then jsonMsgPass tm service m1 else m1
    let credUpd : Option (Str × KVList) :=
      match service with
      | some svc => (alookup m2 svc).map (fun d => (svc, d))
      | none => none
    (some (PEvent.task_result status host currentTask tm line credUpd), m2)
  | none =>
    match scanMarkerBracket (str "TASK") line with
    | some name => (some (PEvent.task name line), m)
    | none =>
      match scanMarkerBracket (str "PLAY") line with
      | some name => (some (PEvent.play name line), m)
      | none =>
        match scanSummary line with
        | some p => (some (PEvent.summary p.1 p.2 line), m)
        | none => (none, m)

/-- The mutable state threaded through the stdout data handler: the
`currentTask` string and the accumulated `credentials` object. -/
structure ParseState where
  currentTask : Str
  creds : CredMap
deriving DecidableEq

/-- One line of the stdout data handler (`playbookService.js` lines
218-228, with the output subscriber present): skip lines that trim to
nothing, otherwise classify and update `currentTask` on a `task` event. -/
def processLine (service : Option Str) (st : ParseState) (line : Str) :
    ParseState × Option PEvent :=
  if trimStr line = [] then (st, none)
  else
    match parseAnsibleOutput line st.currentTask st.creds service with
    | (some ev, m') =>
      (match ev with
       | PEvent.task name _ => ({ currentTask := name, creds := m' }, some ev)
       | _ => ({ st with creds := m' }, some ev))
    | (none, m') => ({ st with creds := m' }, none)

/-- Process a list of already-split lines, collecting the emitted events. -/
def processLines (service : Option Str) : ParseState → List Str → ParseState × List PEvent
  | st, [] => (st, [])
  | st, l :: ls =>
    let p := processLine service st l
    let q := processLines service p.1 ls
    (q.1, p.2.toList ++ q.2)

/-- One invocation of the stdout data handler: split the chunk on newlines
(no carry-over of a trailing fragment) and process each piece. -/
def processChunk (service : Option Str) (st : ParseState) (chunk : Str) :
    ParseState × List PEvent :=
  processLines service st (splitChar '\n' chunk)

/-- Feed successive stdout chunks through the data handler. -/
def processChunks (service : Option Str) : ParseState → List Str → ParseState × List PEvent
  | st, [] => (st, [])
  | st, c :: cs =>
    let p := processChunk service st c
    let q := processChunks service p.1 cs
    (q.1, p.2 ++ q.2)

/-- The object passed to `resolve`/`reject`; fields the source omits on a
given path are `none`. -/
structure ExecResult where
  success : Bool
  stdout : Str
  stderr : Str
  credentials : Option CredMap
  error : Option Str
  exitCode : Option Int
  fullOutput : Option Str
deriving DecidableEq

/-- A settled promise: `resolve(r)` or `reject(r)`. -/
inductive Settled where
  | resolved (r : ExecResult) : Settled
  | rejected (r : ExecResult) : Settled
deriving DecidableEq

/-- `config.credentialDefaults`: conventional on-host credentials-file paths
for the known services (rabbitmq deliberately has none). -/
def credentialDefaultsJS (svc : Str) : Option KVList :=
  if svc = str "mysql" then some [(str "path", str "/tmp/mysql_credentials.txt")]
  else if svc = str "mongodb" then some [(str "path", str "/tmp/mongodb_credentials.txt")]
  else none

/-- `credentials[currentService] = {...defaults, ...(credentials[currentService] || {})}`,
guarded on the service having defaults. -/
def applyCredentialDefaults (service : Option Str) (m : CredMap) : CredMap :=
  match service with
  | some svc =>
    match credentialDefaultsJS svc with
    | some defs => setVal m svc (mergeObj defs ((alookup m svc).getD []))
    | none => m
  | none => m

/-- The human-readable exit-code classification of the `close` handler
(`playbookService.js` lines 263-265). -/
def errorMessageFor (code : Int) : Str :=
  if code = 2 then str "One or more tasks failed"
  else if code = 4 then str "One or more hosts unreachable"
  else str "Process exited with code " ++ str (toString code)

/-- The `close` handler of `executePlaybook` (`playbookService.js` lines
239-273): merge the credential defaults, then resolve on exit code 0 and
reject otherwise. -/
def closeHandler (service : Option Str) (code : Int) (stdout stderr : Str)
    (m : CredMap) : Settled :=
  let m' := applyCredentialDefaults service m
  if code = 0 then
    Settled.resolved
      { success := true, stdout := stdout, stderr := stderr,
        credentials := some m', error := none, exitCode := none, fullOutput := none }
  else
    Settled.rejected
      { success := false, stdout := stdout, stderr := stderr,
        credentials := some m', error := some (errorMessageFor code),
        exitCode := some code, fullOutput := some (stdout ++ '\n' :: stderr) }

/-- The `error` handler of `executePlaybook` (`playbookService.js` lines
275-282): reject with the spawn error's message and the buffers accumulated
so far (no credentials, no exit code). -/
def errorHandler (message : Str) (stdout stderr : Str) : Settled :=
  Settled.rejected
    { success := false, stdout := stdout, stderr := stderr,
      credentials := none, error := some message, exitCode := none, fullOutput := none }

/-- How the spawned process terminates: a `close` event with an exit code, or
an `error` event (the engine binary or compatibility layer could not be
started). -/
inductive ProcOutcome where
  | closed (code : Int) : ProcOutcome
  | spawnError (message : Str) : ProcOutcome

/-- `currentService` from `playbookService.js` lines 204-206. -/
def serviceFor (playbookType : Str) : Option Str :=
  if playbookType = str "mysql" ∨ playbookType = str "mongodb" ∨ playbookType = str "rabbitmq"
  then some playbookType else none

/-- The initial credentials object seeded with the defaults
(`playbookService.js` lines 209-211). -/
def initialCredentials (service : Option Str) : CredMap :=
  match service with
  | some svc =>
    match credentialDefaultsJS svc with
    | some defs => [(svc, defs)]
    | none => []
  | none => []

/-- `stdout += text` accumulation over the received chunks. -/
def concatStr (chunks : List Str) : Str := chunks.foldl (fun a b => a ++ b) []

/-- End-to-end model of one `executePlaybook` run (`playbookService.js`):
seed default credentials, stream the stdout chunks through the data handler,
and settle via the `close` or `error` handler.  The promise always settles —
a spawn failure cannot hang. -/
def executePlaybookRun (playbookType : Str) (stdoutChunks stderrChunks : List Str)
    (outcome : ProcOutcome) : Settled :=
  let service := serviceFor playbookType
  let st0 : ParseState := { currentTask := [], creds := initialCredentials service }
  let stFinal := (processChunks service st0 stdoutChunks).1
  let stdout := concatStr stdoutChunks
  let stderr := concatStr stderrChunks
  match outcome with
  | ProcOutcome.closed code => closeHandler service code stdout stderr stFinal.creds
  | ProcOutcome.spawnError msg => errorHandler msg stdout stderr

/-- `recordCredential(service, key, value)` from the legacy server variant:
skip falsy service/key, lower-case the service, seed a missing entry from the
defaults, then assign. -/
def recordCredential (m : CredMap) (service key value : Str) : CredMap :=
  if service = [] ∨ key = [] then m
  else
    let ns := lowerStr service
    let m1 :=
      match alookup m ns with
      | some _ => m
      | none => m ++ [(ns, (credentialDefaultsJS ns).getD [])]
    setVal m1 ns (setVal ((alookup m1 ns).getD []) key value)

/-- Global-regex scan `CREDENTIALS\|<service>\|([^\n]+)` with `exec` in a
loop: successive non-overlapping matches, each capturing the maximal nonempty
run of non-newline characters after the literal part; a failed attempt
advances one position, a successful one continues after the whole match.
The `Nat` argument counts positions still to skip. -/
def scanSkip (pat : Str) : Str → Nat → List Str
  | [], _ => []
  | _ :: rest, Nat.succ skip => scanSkip pat rest skip
  | c :: rest, 0 =>
    if isPfx pat (c :: rest) then
      match ((c :: rest).drop pat.length).takeWhile (fun x => !(x == '\n')) with
      | [] => scanSkip pat rest 0
      | g :: gs => (g :: gs) :: scanSkip pat rest (pat.length + (g :: gs).length - 1)
    else scanSkip pat rest 0

/-- All captures of `CREDENTIALS\|<service>\|([^\n]+)` over the retained
stdout buffer. -/
def scanCredMarkers (service : Str) (stdout : Str) : List Str :=
  scanSkip (str "CREDENTIALS|" ++ service ++ ['|']) stdout 0

/-- One captured segment of the fallback scan: `segment.split('=')`,
destructure `[k, v]`, record when both truthy. -/
def applyMarkerSegment (service : Str) (m : CredMap) (seg : Str) : CredMap :=
  match splitChar '=' seg with
  | k :: v :: _ =>
    if k ≠ [] ∧ v ≠ [] then recordCredential m service (trimStr k) (trimStr v) else m
  | _ => m

/-- The fallback full-buffer credential scan of the legacy close handler. -/
def fallbackScan (service : Str) (stdout : Str) (m : CredMap) : CredMap :=
  (scanCredMarkers service stdout).foldl
    (fun acc grp => (splitChar '|' grp).foldl (applyMarkerSegment service) acc) m

/-- The `close` handler of the legacy `executePlaybook` variant (monolithic
server, lines 472-518): exit codes 0 and 2 resolve as success, running the
fallback scan first when the service's credential set is absent or has at
most one key; other exit codes reject with a generic message. -/
def closeHandlerV (service : Option Str) (code : Int) (stdout stderr : Str)
    (m : CredMap) : Settled :=
  if code = 0 ∨ code = 2 then
    let m1 :=
      match service with
      | some svc =>
        if alookup m svc = none ∨ ((alookup m svc).getD []).length ≤ 1 then
          fallbackScan svc stdout m
        else m
      | none => m
    let m2 := applyCredentialDefaults service m1
    Settled.resolved
      { success := true, stdout := stdout, stderr := stderr,
        credentials := some m2, error := none, exitCode := none, fullOutput := none }
  else
    let m2 := applyCredentialDefaults service m
    Settled.rejected
      { success := false, stdout := stdout, stderr := stderr,
        credentials := some m2,
        error := some (str "Process exited with code " ++ str (toString code)),
        exitCode := some code, fullOutput := some (stdout ++ '\n' :: stderr) }

/-- A target host record as received by the inventory service.  Optional
fields model absent object properties; JavaScript truthiness additionally
treats the empty string (and port 0) as absent. -/
structure Server where
  hostname : String
  ssh_port : Option Nat
  ssh_user : Option String
  ssh_user_type : Option String
  ssh_auth_type : Option String
  password : Option String
  sudo_password : Option String
  ssh_key : Option String
  role : Option String
  ansible_user : Option String
deriving DecidableEq

/-- Truthiness of an optional string field (`undefined` and `""` are falsy). -/
def truthy (o : Option String) : Option String :=
  match o with
  | some s => if s = "" then none else some s
  | none => none

/-- `server.ssh_port || 22` (0 is falsy in JavaScript). -/
def jsPort (p : Option Nat) : Nat :=
  match p with
  | some n => if n = 0 then 22 else n
  | none => 22

/-- `server.hostname.replace(/\./g, '_')`. -/
def dotToUnderscore (h : String) : String :=
  String.map (fun c => if c = '.' then '_' else c) h

/-- The deterministic per-host ephemeral key-file path. -/
def keyFilePath (hostname : String) : String :=
  "/tmp/ansible_key_" ++ dotToUnderscore hostname ++ ".pem"

/-- `formatServerLine(server, name)` from `inventoryService.js` lines
2102-2133 of the combined source: host address, port, login user, one
authentication clause, and an optional privilege-elevation clause. -/
def formatServerLine (server : Server) (name : String) : String :=
  let sshUser := (truthy server.ssh_user).getD "root"
  let sshUserType := (truthy server.ssh_user_type).getD "root"
  let sshAuthType := (truthy server.ssh_auth_type).getD "password"
  let l1 := name ++ " ansible_host=" ++ server.hostname ++ " ansible_port=" ++
    toString (jsPort server.ssh_port) ++ " ansible_user=" ++ sshUser
  let l2 :=
    if sshAuthType = "key" then
      match truthy server.ssh_key with
      | some _ => l1 ++ " ansible_ssh_private_key_file=" ++ keyFilePath server.hostname
      | none => l1
    else
      match truthy server.password with
      | some pw => l1 ++ " ansible_ssh_pass=" ++ pw
      | none => l1
  if sshUserType = "sudo" then
    let l3 := l2 ++ " ansible_become=yes ansible_become_method=sudo"
    match truthy server.sudo_password with
    | some sp => l3 ++ " ansible_become_pass=" ++ sp
    | none =>
      match truthy server.password with
      | some pw => l3 ++ " ansible_become_pass=" ++ pw
      | none => l3
  else l2

/-- `forEach((server, idx) => content += formatServerLine(server, base + idx) + '\n')`,
carrying the running index. -/
def groupLinesFrom (base : String) (i : Nat) : List Server → String
  | [] => ""
  | s :: rest => formatServerLine s (base ++ toString i) ++ "\n" ++ groupLinesFrom base (i + 1) rest

/-- The host lines of one inventory group. -/
def groupLines (base : String) (servers : List Server) : String :=
  groupLinesFrom base 0 servers

/-- The deduplication key `hostname:port` of the env-check branch. -/
def dedupKey (s : Server) : String := s.hostname ++ ":" ++ toString (jsPort s.ssh_port)

/-- The seen-set loop of the env-check branch. -/
def envCheckDedupGo : List String → List Server → List Server
  | _, [] => []
  | seen, s :: rest =>
    if dedupKey s ∈ seen then envCheckDedupGo seen rest
    else s :: envCheckDedupGo (dedupKey s :: seen) rest

/-- Deduplicate servers by `hostname:port`, keeping first occurrences. -/
def envCheckDedup (servers : List Server) : List Server := envCheckDedupGo [] servers

/-- An apostrophe, kept out of string literals. -/
def singleQuote : String := String.singleton (Char.ofNat 39)

/-- `config.ansible.sshCommonArgs`. -/
def sshCommonArgs : String :=
  "-o StrictHostKeyChecking=no -o UserKnownHostsFile=/dev/null -o PreferredAuthentications=password,keyboard-interactive -o PubkeyAuthentication=no"

/-- The shared `[all:vars]` block appended to every inventory document. -/
def commonVarsBlock (servers : List Server) : String :=
  let defaultUser :=
    match servers.find? (fun s => (truthy s.ansible_user).isSome) with
    | some s => (truthy s.ansible_user).getD "ubuntu"
    | none => "ubuntu"
  "\n[all:vars]\n" ++ "ansible_user=" ++ defaultUser ++ "\n" ++ "ansible_become=true\n" ++
    "ansible_ssh_common_args=" ++ singleQuote ++ sshCommonArgs ++ singleQuote ++ "\n"

/-- The mysql grouping: `primary` (role `primary` or unset), `secondary`,
and the `mysql:children` aggregate. -/
def mysqlSections (servers : List Server) : String :=
  let primaryServers := servers.filter (fun s => s.role == some "primary" || (truthy s.role).isNone)
  let secondaryServers := servers.filter (fun s => s.role == some "secondary")
  (if primaryServers.length > 0 then "[primary]\n" ++ groupLines "mysql-primary-" primaryServers ++ "\n" else "")
  ++ (if secondaryServers.length > 0 then "[secondary]\n" ++ groupLines "mysql-secondary-" secondaryServers ++ "\n" else "")
  ++ "[mysql:children]\n"
  ++ (if primaryServers.length > 0 then "primary\n" else "")
  ++ (if secondaryServers.length > 0 then "secondary\n" else "")

/-- The mongodb grouping: `primary` (default), `secondary`, `arbiter`, and
the `mongo:children` aggregate. -/
def mongodbSections (servers : List Server) : String :=
  let primaryServers := servers.filter (fun s => s.role == some "primary" || (truthy s.role).isNone)
  let secondaryServers := servers.filter (fun s => s.role == some "secondary")
  let arbiterServers := servers.filter (fun s => s.role == some "arbiter")
  (if primaryServers.length > 0 then "[primary]\n" ++ groupLines "mongo-primary-" primaryServers ++ "\n" else "")
  ++ (if secondaryServers.length > 0 then "[secondary]\n" ++ groupLines "mongo-secondary-" secondaryServers ++ "\n" else "")
  ++ (if arbiterServers.length > 0 then "[arbiter]\n" ++ groupLines "mongo-arbiter-" arbiterServers ++ "\n" else "")
  ++ "[mongo:children]\n"
  ++ (if primaryServers.length > 0 then "primary\n" else "")
  ++ (if secondaryServers.length > 0 then "secondary\n" else "")
  ++ (if arbiterServers.length > 0 then "arbiter\n" else "")

/-- The kubernetes grouping: `master` (roles `master`/`k8s-master`),
`worker` (roles `worker`/`k8s-worker`), and the `kubernetes:children`
aggregate. -/
def k8sSections (servers : List Server) : String :=
  let masterServers := servers.filter (fun s => s.role == some "master" || s.role == some "k8s-master")
  let workerServers := servers.filter (fun s => s.role == some "worker" || s.role == some "k8s-worker")
  (if masterServers.length > 0 then "[master]\n" ++ groupLines "k8s-master-" masterServers ++ "\n" else "")
  ++ (if workerServers.length > 0 then "[worker]\n" ++ groupLines "k8s-worker-" workerServers ++ "\n" else "")
  ++ "[kubernetes:children]\n"
  ++ (if masterServers.length > 0 then "master\n" else "")
  ++ (if workerServers.length > 0 then "worker\n" else "")

/-- `generateInventoryContent(servers, playbookType)` from
`inventoryService.js` lines 2154-2274 of the combined source: RunKind-specific
grouping followed by the shared variables block. -/
def generateInventoryContent (servers : List Server) (playbookType : String) : String :=
  (if playbookType = "mysql" then mysqlSections servers
   else if playbookType = "mongodb" then mongodbSections servers
   else if playbookType = "kubernetes" then k8sSections servers
   else if playbookType = "env-check" then "[all]\n" ++ groupLines "server-" (envCheckDedup servers)
   else "[all]\n" ++ groupLines "server-" servers)
  ++ commonVarsBlock servers

/-- Filesystem model for cleanup: the set of existing paths.  `fs.unlink`
removes an existing path and throws on a missing one. -/
def unlinkE (fs : List String) (p : String) : Except Unit (List String) :=
  if p ∈ fs then Except.ok (fs.erase p) else Except.error ()

/-- The key-file loop of `cleanupInventory`: per qualifying server, unlink
the key file inside its own try/catch (a missing file is ignored). -/
def cleanupKeyFiles (fs : List String) (servers : List Server) : List String :=
  servers.foldl
    (fun acc s =>
      if s.ssh_auth_type = some "key" ∧ (truthy s.ssh_key).isSome then
        match unlinkE acc (keyFilePath s.hostname) with
        | Except.ok fs' => fs'
        | Except.error _ => acc
      else acc)
    fs

/-- Models `config.paths.inventory`. -/
def inventoryDirPath : String := ".inventory"

/-- `path.join(config.paths.inventory, inventoryId + '.ini')`. -/
def inventoryFilePath (inventoryId : String) : String :=
  inventoryDirPath ++ "/" ++ inventoryId ++ ".ini"

/-- `cleanupInventory(inventoryId, servers)` (`inventoryService.js` lines
2303-2322 of the combined source): unlink the inventory file then the key
files, with the whole body inside a try/catch that logs and returns
normally.  The result is therefore always `Except.ok`; if the inventory
unlink throws, the key-file loop is skipped and the filesystem is returned
unchanged. -/
def cleanupInventoryRun (fs : List String) (inventoryId : String)
    (servers : List Server) : Except Unit (List String) :=
  match unlinkE fs (inventoryFilePath inventoryId) with
  | Except.ok fs1 => Except.ok (cleanupKeyFiles fs1 servers)
  | Except.error _ => Except.ok fs

/-- The credentials object carried by a settled promise. -/
def settledCredentials : Settled → Option CredMap
  | Settled.resolved r => r.credentials
  | Settled.rejected r => r.credentials

/-- Whether the promise was rejected. -/
def settledIsRejected : Settled → Bool
  | Settled.resolved _ => false
  | Settled.rejected _ => true

/-- Look one credential value up in a settled result. -/
def settledCredLookup (s : Settled) (svc k : Str) : Option Str :=
  alookup ((alookup ((settledCredentials s).getD []) svc).getD []) k

/-- Every service-level key of the credentials object is lower-case. -/
def LowerKeys (m : CredMap) : Prop := ∀ p ∈ m, lowerStr p.1 = p.1

/-- A sample host used to evaluate the theorems on concrete inputs. -/
def sampleHostA : Server :=
  { hostname := "10.0.0.5", ssh_port := some 22, ssh_user := none, ssh_user_type := none,
    ssh_auth_type := none, password := some "pw", sudo_password := none, ssh_key := none,
    role := some "primary", ansible_user := none }

/-- The same physical host under a different role tag. -/
def sampleHostB : Server := { sampleHostA with role := some "secondary" }

/-- A sample kubernetes master host. -/
def sampleHostMaster : Server := { sampleHostA with role := some "master" }

/-- A sample host with a role tag no kubernetes group recognizes. -/
def sampleHostUnknownRole : Server := { sampleHostA with role := some "database" }

/-- C7: the Inventory Builder is deterministic — for every TargetHost list
and RunKind, two invocations on equal inputs produce byte-identical
inventory document text.  `generateInventoryContent` is a pure function of
its two arguments (the shared variables block reads only the fixed
configuration constant), so equal inputs give equal documents. -/
theorem inventory_builder_deterministic (servers1 servers2 : List Server)
    (kind1 kind2 : String) (hs : servers1 = servers2) (hk : kind1 = kind2) :
    generateInventoryContent servers1 kind1 = generateInventoryContent servers2 kind2 := by
  subst hs
  subst hk
  rfl

/-- Witness for C7 at a concrete input. -/
theorem inventory_builder_deterministic_witness :
    ([] : List Server) = [] ∧ "mysql" = "mysql" ∧
      generateInventoryContent [] "mysql" = generateInventoryContent [] "mysql" :=
  ⟨rfl, rfl, inventory_builder_deterministic [] [] "mysql" "mysql" rfl rfl⟩

/-- C8: `cleanupInventory` never propagates an error: invoking it twice for
the same run — so the inventory file and any key files are already gone the
second time — completes normally both times (errors are swallowed inside
the function's try/catch blocks). -/
theorem cleanup_idempotent_no_throw (fs : List String) (inventoryId : String)
    (servers : List Server) :
    ∃ fs1 fs2, cleanupInventoryRun fs inventoryId servers = Except.ok fs1 ∧
      cleanupInventoryRun fs1 inventoryId servers = Except.ok fs2 := by
  have step : ∀ g : List String, ∃ g', cleanupInventoryRun g inventoryId servers = Except.ok g' := by
    intro g
    unfold cleanupInventoryRun
    cases unlinkE g (inventoryFilePath inventoryId) with
    | ok fs1 => exact ⟨_, rfl⟩
    | error e => exact ⟨_, rfl⟩
  obtain ⟨fs1, h1⟩ := step fs
  obtain ⟨fs2, h2⟩ := step fs1
  exact ⟨fs1, fs2, h1, h2⟩

/-- C1: when the engine subprocess exits with a nonzero code, the `close`
handler rejects with `success = false` and the human-readable reason
"One or more tasks failed" for exit code 2, "One or more hosts unreachable"
for exit code 4, and "Process exited with code N" for every other nonzero
code N. -/
theorem exit_code_classification (service : Option Str) (code : Int)
    (stdout stderr : Str) (m : CredMap) (hcode : code ≠ 0) :
    ∃ r, closeHandler service code stdout stderr m = Settled.rejected r ∧
      r.success = false ∧
      r.error = some (if code = 2 then str "One or more tasks failed"
        else if code = 4 then str "One or more hosts unreachable"
        else str "Process exited with code " ++ str (toString code)) := by
  unfold closeHandler
  rw [if_neg hcode]
  exact ⟨_, rfl, rfl, rfl⟩

/-- Witness for C1 at exit code 5. -/
theorem exit_code_classification_witness :
    (5 : Int) ≠ 0 ∧
    ∃ r, closeHandler none 5 [] [] [] = Settled.rejected r ∧
      r.success = false ∧
      r.error = some (if (5 : Int) = 2 then str "One or more tasks failed"
        else if (5 : Int) = 4 then str "One or more hosts unreachable"
        else str "Process exited with code " ++ str (toString (5 : Int))) :=
  ⟨by decide, exit_code_classification none 5 [] [] [] (by decide)⟩

/-- C3: a run whose subprocess exits with code 0 resolves with
`success = true`; a spawn failure settles (never hangs) as a rejection with
`success = false`, empty stdout and stderr, and a non-empty error message. -/
theorem exit_zero_success_and_spawn_failure (playbookType : Str)
    (stdoutChunks stderrChunks : List Str) (msg : Str) (hmsg : msg ≠ []) :
    (∃ r, executePlaybookRun playbookType stdoutChunks stderrChunks (ProcOutcome.closed 0) =
        Settled.resolved r ∧ r.success = true) ∧
    (∃ r, executePlaybookRun playbookType [] [] (ProcOutcome.spawnError msg) =
        Settled.rejected r ∧ r.success = false ∧ r.stdout = [] ∧ r.stderr = [] ∧
        ∃ e, r.error = some e ∧ e ≠ []) := by
  constructor
  · exact ⟨_, rfl, rfl⟩
  · exact ⟨_, rfl, rfl, rfl, rfl, ⟨msg, rfl, hmsg⟩⟩

/-- Witness for C3 with a concrete spawn-error message. -/
theorem exit_zero_success_and_spawn_failure_witness :
    str "spawn ansible-playbook ENOENT" ≠ ([] : Str) ∧
    ((∃ r, executePlaybookRun (str "mysql") [] [] (ProcOutcome.closed 0) =
        Settled.resolved r ∧ r.success = true) ∧
     (∃ r, executePlaybookRun (str "mysql") [] []
          (ProcOutcome.spawnError (str "spawn ansible-playbook ENOENT")) =
        Settled.rejected r ∧ r.success = false ∧ r.stdout = [] ∧ r.stderr = [] ∧
        ∃ e, r.error = some e ∧ e ≠ [])) :=
  ⟨by decide,
   exit_zero_success_and_spawn_failure (str "mysql") [] []
     (str "spawn ansible-playbook ENOENT") (by decide)⟩

/-- Looking up the key just assigned returns the assigned value. -/
theorem alookup_setVal_self {α : Type} (m : List (Str × α)) (k : Str) (v : α) :
    alookup (setVal m k v) k = some v := by
  induction m with
  | nil => simp [setVal, alookup]
  | cons p rest ih =>
    obtain ⟨k', v'⟩ := p
    by_cases h : k' = k
    · subst h
      simp [setVal, alookup]
    · simp [setVal, alookup, h, ih]

/-- After the defaults merge of the `close` handler, the service entry holds
the default `path` whenever parsing left it absent or equal to the default. -/
theorem closeHandler_path_default (svc dp : Str) (code : Int) (stdout stderr : Str)
    (m : CredMap)
    (hdefs : credentialDefaultsJS svc = some [(str "path", dp)])
    (hpath : alookup ((alookup m svc).getD []) (str "path") = none ∨
      alookup ((alookup m svc).getD []) (str "path") = some dp) :
    ∃ cm, settledCredentials (closeHandler (some svc) code stdout stderr m) = some cm ∧
      alookup ((alookup cm svc).getD []) (str "path") = some dp := by
  have hlook : alookup (applyCredentialDefaults (some svc) m) svc =
      some (mergeObj [(str "path", dp)] ((alookup m svc).getD [])) := by
    simp [applyCredentialDefaults, hdefs]
    exact alookup_setVal_self ..
  have hpathval :
      alookup (mergeObj [(str "path", dp)] ((alookup m svc).getD [])) (str "path") = some dp := by
    rcases hpath with h | h <;> simp [mergeObj, alookup, h]
  refine ⟨applyCredentialDefaults (some svc) m, ?_, ?_⟩
  · by_cases hc : code = 0 <;> simp [closeHandler, hc, settledCredentials]
  · rw [hlook]
    simpa using hpathval

/-- C6: for a run whose service is mysql or mongodb, when output parsing
produced no explicit `path` key (the entry is absent, or still carries only
the seeded default), the final credentials contain the service's default
credentials-file path — on success and on run failure alike. -/
theorem default_path_injected (svc : Str)
    (hsvc : svc = str "mysql" ∨ svc = str "mongodb")
    (code : Int) (stdout stderr : Str) (m : CredMap)
    (hpath : alookup ((alookup m svc).getD []) (str "path") = none ∨
      alookup ((alookup m svc).getD []) (str "path") =
        some (if svc = str "mysql" then str "/tmp/mysql_credentials.txt"
              else str "/tmp/mongodb_credentials.txt")) :
    ∃ cm, settledCredentials (closeHandler (some svc) code stdout stderr m) = some cm ∧
      alookup ((alookup cm svc).getD []) (str "path") =
        some (if svc = str "mysql" then str "/tmp/mysql_credentials.txt"
              else str "/tmp/mongodb_credentials.txt") := by
  rcases hsvc with h | h
  · subst h
    simp only [if_pos rfl] at hpath ⊢
    exact closeHandler_path_default (str "mysql") (str "/tmp/mysql_credentials.txt")
      code stdout stderr m (by simp [credentialDefaultsJS]) hpath
  · subst h
    have hne : ¬(str "mongodb" = str "mysql") := by decide
    rw [if_neg hne] at hpath ⊢
    refine closeHandler_path_default (str "mongodb") (str "/tmp/mongodb_credentials.txt")
      code stdout stderr m ?_ hpath
    simp [credentialDefaultsJS, hne]

/-- Witness for C6: mysql service, failing exit code 4, nothing parsed at
all. -/
theorem default_path_injected_witness :
    (str "mysql" = str "mysql" ∨ str "mysql" = str "mongodb") ∧
    (alookup ((alookup ([] : CredMap) (str "mysql")).getD []) (str "path") = none ∨
      alookup ((alookup ([] : CredMap) (str "mysql")).getD []) (str "path") =
        some (if str "mysql" = str "mysql" then str "/tmp/mysql_credentials.txt"
              else str "/tmp/mongodb_credentials.txt")) ∧
    (∃ cm, settledCredentials (closeHandler (some (str "mysql")) 4 [] [] []) = some cm ∧
      alookup ((alookup cm (str "mysql")).getD []) (str "path") =
        some (if str "mysql" = str "mysql" then str "/tmp/mysql_credentials.txt"
              else str "/tmp/mongodb_credentials.txt")) :=
  ⟨Or.inl rfl, Or.inl (by decide),
   default_path_injected (str "mysql") (Or.inl rfl) 4 [] [] [] (Or.inl (by decide))⟩

/-- C4: for RunKind env-check the Inventory Builder deduplicates target
hosts by the (hostname, SSH port) pair: two TargetHosts with the same
hostname and port (whatever their role tags) yield a document whose `[all]`
group holds exactly one host entry. -/
theorem env_check_dedup_single (s1 s2 : Server)
    (hh : s1.hostname = s2.hostname) (hp : jsPort s1.ssh_port = jsPort s2.ssh_port) :
    generateInventoryContent [s1, s2] "env-check" =
      "[all]\n" ++ formatServerLine s1 "server-0" ++ "\n" ++ commonVarsBlock [s1, s2] := by
  have hkey : dedupKey s2 = dedupKey s1 := by
    unfold dedupKey
    rw [hh, hp]
  have hdedup : envCheckDedup [s1, s2] = [s1] := by
    simp [envCheckDedup, envCheckDedupGo, hkey]
  have hbranch : generateInventoryContent [s1, s2] "env-check" =
      "[all]\n" ++ groupLines "server-" (envCheckDedup [s1, s2]) ++ commonVarsBlock [s1, s2] := rfl
  rw [hbranch, hdedup]
  have h0 : "server-" ++ toString (0 : Nat) = "server-0" := by decide
  have hgl : groupLines "server-" [s1] = formatServerLine s1 "server-0" ++ "\n" := by
    simp [groupLines, groupLinesFrom, h0, String.append_empty]
  rw [hgl]
  simp [String.append_assoc]

/-- Witness for C4: two hosts sharing hostname and port but carrying
different role tags yield a single `[all]` entry. -/
theorem env_check_dedup_single_witness :
    sampleHostA.hostname = sampleHostB.hostname ∧
    jsPort sampleHostA.ssh_port = jsPort sampleHostB.ssh_port ∧
    generateInventoryContent [sampleHostA, sampleHostB] "env-check" =
      "[all]\n" ++ formatServerLine sampleHostA "server-0" ++ "\n" ++
        commonVarsBlock [sampleHostA, sampleHostB] :=
  ⟨rfl, rfl, env_check_dedup_single sampleHostA sampleHostB rfl rfl⟩

/-- C10: for RunKind kubernetes, a TargetHost whose role tag matches none of
the recognized master/worker role names contributes no host line to any
group — the group sections are those of the list without it (only the shared
variables block still sees the full list). -/
theorem k8s_unknown_role_omitted (pre post : List Server) (s : Server)
    (h1 : s.role ≠ some "master") (h2 : s.role ≠ some "k8s-master")
    (h3 : s.role ≠ some "worker") (h4 : s.role ≠ some "k8s-worker") :
    generateInventoryContent (pre ++ s :: post) "kubernetes" =
      k8sSections (pre ++ post) ++ commonVarsBlock (pre ++ s :: post) := by
  have hg : ∀ L, generateInventoryContent L "kubernetes" = k8sSections L ++ commonVarsBlock L :=
    fun L => rfl
  rw [hg]
  have hm : (s.role == some "master" || s.role == some "k8s-master") = false := by
    simp [h1, h2]
  have hw : (s.role == some "worker" || s.role == some "k8s-worker") = false := by
    simp [h3, h4]
  congr 1
  simp only [k8sSections, List.filter_append, List.filter_cons, hm, hw]
  simp

/-- Witness for C10: a host tagged `database` is silently omitted from the
kubernetes groups. -/
theorem k8s_unknown_role_omitted_witness :
    sampleHostUnknownRole.role ≠ some "master" ∧
    sampleHostUnknownRole.role ≠ some "k8s-master" ∧
    sampleHostUnknownRole.role ≠ some "worker" ∧
    sampleHostUnknownRole.role ≠ some "k8s-worker" ∧
    generateInventoryContent [sampleHostMaster, sampleHostUnknownRole] "kubernetes" =
      k8sSections [sampleHostMaster] ++
        commonVarsBlock [sampleHostMaster, sampleHostUnknownRole] :=
  ⟨by decide, by decide, by decide, by decide,
   k8s_unknown_role_omitted [sampleHostMaster] [] sampleHostUnknownRole
     (by decide) (by decide) (by decide) (by decide)⟩

/-- `split` never returns an empty list of pieces. -/
theorem splitChar_ne_nil (ch : Char) (s : Str) : splitChar ch s ≠ [] := by
  induction s with
  | nil => simp [splitChar]
  | cons c rest ih =>
    by_cases h : c = ch
    · simp [splitChar, h]
    · rcases hs : splitChar ch rest with _ | ⟨l, ls⟩
      · exact absurd hs ih
      · simp [splitChar, h, hs]

/-- Splitting around an explicit separator splits the two sides
independently. -/
theorem splitChar_append_cons (ch : Char) (a b : Str) :
    splitChar ch (a ++ ch :: b) = splitChar ch a ++ splitChar ch b := by
  induction a with
  | nil => simp [splitChar]
  | cons c rest ih =>
    by_cases h : c = ch
    · simp [splitChar, h, ih]
    · rcases h1 : splitChar ch rest with _ | ⟨l, ls⟩
      · exact absurd h1 (splitChar_ne_nil ch rest)
      · have h2 : splitChar ch (rest ++ ch :: b) = (l :: ls) ++ splitChar ch b := by
          rw [ih, h1]
        simp [splitChar, h, h1, h2]

/-- Processing a concatenation of line lists composes the state and
concatenates the events. -/
theorem processLines_append (service : Option Str) (st : ParseState) (ls1 ls2 : List Str) :
    processLines service st (ls1 ++ ls2) =
      ((processLines service (processLines service st ls1).1 ls2).1,
       (processLines service st ls1).2 ++
         (processLines service (processLines service st ls1).1 ls2).2) := by
  induction ls1 generalizing st with
  | nil => simp [processLines]
  | cons l rest ih => simp [processLines, ih, List.append_assoc]

/-- An empty line is skipped with no state change and no event. -/
theorem processLine_empty (service : Option Str) (st : ParseState) :
    processLine service st [] = (st, none) := rfl

/-- C2 (amended): the stdout handler splits each chunk on newlines with no
carry-over, so splitting the stream at a chunk boundary that falls
immediately after a newline yields exactly the same state and event sequence
as feeding it whole. -/
theorem chunk_boundary_after_newline_preserves_events (service : Option Str)
    (st : ParseState) (a c2 : Str) :
    processChunks service st [a ++ ['\n'], c2] =
      processChunk service st ((a ++ ['\n']) ++ c2) := by
  have h1 : splitChar '\n' (a ++ ['\n']) = splitChar '\n' a ++ [[]] := by
    simpa [splitChar] using splitChar_append_cons '\n' a []
  have h2 : splitChar '\n' ((a ++ ['\n']) ++ c2) = splitChar '\n' a ++ splitChar '\n' c2 := by
    rw [List.append_assoc]
    simpa using splitChar_append_cons '\n' a c2
  have h3 : ∀ st' : ParseState, processLines service st' [[]] = (st', []) := by
    intro st'
    simp [processLines, processLine_empty]
  simp only [processChunks, processChunk, h1, h2]
  rw [processLines_append, processLines_append, h3]
  simp

/-- C2 (counterexample): splitting the same stdout content at a byte offset
that falls inside a line changes the emitted event sequence — the fragments
of `TASK [foo]` produce no `task` event, while the whole line produces one. -/
theorem chunk_split_mid_line_changes_events :
    processChunks none { currentTask := [], creds := [] } [str "TASK [f", str "oo]\n"] ≠
      processChunk none { currentTask := [], creds := [] } (str "TASK [f" ++ str "oo]\n") := by
  decide

/-- ASCII lower-casing is idempotent. -/
theorem asciiLower_idem (c : Char) : asciiLower (asciiLower c) = asciiLower c := by
  unfold asciiLower
  by_cases h : 65 ≤ c.toNat ∧ c.toNat ≤ 90
  · rw [if_pos h]
    have hn : (Char.ofNat (c.toNat + 32)).toNat = c.toNat + 32 := by
      have hv : (c.toNat + 32).isValidChar := by
        left
        omega
      simp only [Char.ofNat, hv, dif_pos]
      rfl
    rw [if_neg]
    rw [hn]
    omega
  · rw [if_neg h, if_neg h]

/-- Lower-casing a string is idempotent. -/
theorem lowerStr_idem (s : Str) : lowerStr (lowerStr s) = lowerStr s := by
  induction s with
  | nil => rfl
  | cons c r ih =>
    simp only [lowerStr, List.map_cons, List.map_map] at *
    exact List.cons_eq_cons.mpr ⟨asciiLower_idem c, ih⟩

/-- A member of `setVal m k v` either has key `k` or was already in `m`. -/
theorem mem_setVal {α : Type} (m : List (Str × α)) (k : Str) (v : α) (p : Str × α)
    (hp : p ∈ setVal m k v) : p.1 = k ∨ p ∈ m := by
  induction m with
  | nil =>
    simp [setVal] at hp
    simp [hp]
  | cons q rest ih =>
    obtain ⟨k', v'⟩ := q
    by_cases h : k' = k
    · subst h
      simp [setVal] at hp
      rcases hp with hp | hp
      · simp [hp]
      · simp [hp]
    · simp [setVal, h] at hp
      rcases hp with hp | hp
      · simp [hp]
      · rcases ih hp with h1 | h1
        · exact Or.inl h1
        · simp [h1]

/-- `credSetKV` preserves the lower-case service-key invariant when the
assigned service name is lower-case. -/
theorem lowerKeys_credSetKV (m : CredMap) (svc k v : Str) (hm : LowerKeys m)
    (hsvc : lowerStr svc = svc) : LowerKeys (credSetKV m svc k v) := by
  intro p hp
  unfold credSetKV at hp
  cases halt : alookup m svc with
  | some kv =>
    rw [halt] at hp
    rcases mem_setVal _ _ _ _ hp with h | h
    · rw [h]
      exact hsvc
    · exact hm p h
  | none =>
    rw [halt] at hp
    rcases List.mem_append.mp hp with h | h
    · exact hm p h
    · simp at h
      rw [h]
      exact hsvc

/-- `credEnsure` preserves the lower-case service-key invariant. -/
theorem lowerKeys_credEnsure (m : CredMap) (svc : Str) (hm : LowerKeys m)
    (hsvc : lowerStr svc = svc) : LowerKeys (credEnsure m svc) := by
  intro p hp
  unfold credEnsure at hp
  cases halt : alookup m svc with
  | some kv =>
    rw [halt] at hp
    exact hm p hp
  | none =>
    rw [halt] at hp
    rcases List.mem_append.mp hp with h | h
    · exact hm p h
    · simp at h
      rw [h]
      exact hsvc

/-- Folding the structured-marker segments preserves the invariant. -/
theorem lowerKeys_foldl_segments (svc : Str) (hsvc : lowerStr svc = svc) (segs : List Str) :
    ∀ m : CredMap, LowerKeys m → LowerKeys (segs.foldl (applyCredSegment svc) m) := by
  induction segs with
  | nil => exact fun m hm => hm
  | cons sg rest ih =>
    intro m hm
    rw [List.foldl_cons]
    apply ih
    unfold applyCredSegment
    rcases hsp : splitChar '=' sg with _ | ⟨k1, _ | ⟨v1, tl⟩⟩
    · exact hm
    · exact hm
    · show LowerKeys (if k1 ≠ [] ∧ v1 ≠ [] then credSetKV m svc (trimStr k1) (trimStr v1) else m)
      by_cases hkv : k1 ≠ [] ∧ v1 ≠ []
      · rw [if_pos hkv]
        exact lowerKeys_credSetKV _ _ _ _ hm hsvc
      · rw [if_neg hkv]
        exact hm

/-- One line of `parseCredentials` preserves the invariant: the structured
branch records under the lower-cased service name, the fixed patterns under
literal lower-case names. -/
theorem lowerKeys_parseCredLine (m : CredMap) (line : Str) (hm : LowerKeys m) :
    LowerKeys (parseCredLine m line) := by
  simp only [parseCredLine]
  split
  · split
    · exact hm
    · split
      · exact hm
      · exact lowerKeys_foldl_segments _ (lowerStr_idem _) _ _
          (lowerKeys_credEnsure _ _ hm (lowerStr_idem _))
  · repeat'
      first
      | exact lowerKeys_credSetKV _ _ _ _ hm (by decide)
      | exact hm
      | split

/-- C9: every service key of the credentials object built by
`parseCredentials` is lower-case — a `CREDENTIALS|<Service>|k=v` marker with
any letter-casing records under the lower-cased service name; moreover that
marker lands in the very same entry the fixed human-readable patterns use
for the service. -/
theorem service_keys_lowercase (text : Str) (service : Option Str) (m : CredMap)
    (hm : LowerKeys m) :
    LowerKeys (parseCredentials text service m) ∧
    parseCredentials (str "CREDENTIALS|MySQL|username=admin") none [] =
      parseCredentials (str "MySQL user: admin") none [] := by
  constructor
  · unfold parseCredentials
    have hfold : ∀ (ls : List Str) (m0 : CredMap), LowerKeys m0 →
        LowerKeys (ls.foldl parseCredLine m0) := by
      intro ls
      induction ls with
      | nil => exact fun m0 hm0 => hm0
      | cons l rest ih =>
        intro m0 hm0
        rw [List.foldl_cons]
        exact ih _ (lowerKeys_parseCredLine _ _ hm0)
    exact hfold _ _ hm
  · decide

/-- Witness for C9 at a concrete mixed-case marker. -/
theorem service_keys_lowercase_witness :
    LowerKeys [] ∧
    (LowerKeys (parseCredentials (str "CREDENTIALS|MONGODB|password=s3cret") none []) ∧
     parseCredentials (str "CREDENTIALS|MySQL|username=admin") none [] =
       parseCredentials (str "MySQL user: admin") none []) :=
  ⟨by simp [LowerKeys],
   service_keys_lowercase (str "CREDENTIALS|MONGODB|password=s3cret") none []
     (by simp [LowerKeys])⟩

/-- C5 (counterexample): after a process exit with code 4, the legacy close
handler does not re-scan the retained stdout buffer — a structured marker
that arrived split across two chunks (here shown concatenated, as the
buffer retains it) is not recovered into the final result's credentials. -/
theorem fallback_scan_skipped_on_unreachable_exit :
    settledIsRejected (closeHandlerV (some (str "mysql")) 4
      (str "CREDENTIALS|mys" ++ str "ql|username=stackbill\n") [] []) = true ∧
    settledCredLookup (closeHandlerV (some (str "mysql")) 4
      (str "CREDENTIALS|mys" ++ str "ql|username=stackbill\n") [] [])
      (str "mysql") (str "username") = none := by
  decide

/-- Looking up a key that `m` lacks, after appending an entry for it. -/
theorem alookup_append_self {α : Type} (m : List (Str × α)) (k : Str) (v : α)
    (h : alookup m k = none) : alookup (m ++ [(k, v)]) k = some v := by
  induction m with
  | nil => simp [alookup]
  | cons q rest ih =>
    obtain ⟨k', v'⟩ := q
    by_cases hk : k' = k
    · simp [alookup, hk] at h
    · simp [alookup, hk] at h ⊢
      exact ih h

/-- A string without the separator splits into itself. -/
theorem splitChar_no_sep (ch : Char) (s : Str) (h : ∀ c ∈ s, c ≠ ch) :
    splitChar ch s = [s] := by
  induction s with
  | nil => rfl
  | cons c rest ih =>
    have hc : c ≠ ch := h c (List.mem_cons_self c rest)
    have hr : splitChar ch rest = [rest] :=
      ih (fun x hx => h x (List.mem_cons_of_mem c hx))
    simp [splitChar, hc, hr]

/-- `[^\n]+` stops exactly at the first newline. -/
theorem takeWhile_until_newline (seg post : Str) (hseg : ∀ c ∈ seg, c ≠ '\n') :
    (seg ++ '\n' :: post).takeWhile (fun x => !(x == '\n')) = seg := by
  induction seg with
  | nil => simp [List.takeWhile_cons]
  | cons c rest ih =>
    have hc : c ≠ '\n' := hseg c (List.mem_cons_self c rest)
    have hr := ih (fun x hx => hseg x (List.mem_cons_of_mem c hx))
    simp [List.takeWhile_cons, hc, hr]

/-- A string is a prefix of itself followed by anything. -/
theorem isPfx_append_self (a t : Str) : isPfx a (a ++ t) = true := by
  induction a with
  | nil => rfl
  | cons c rest ih => simp [isPfx, ih]

/-- The skip counter consumes exactly the skipped characters. -/
theorem scanSkip_skip (pat : Str) (a b : Str) (k : Nat) :
    scanSkip pat (a ++ b) (a.length + k) = scanSkip pat b k := by
  induction a with
  | nil => simp [scanSkip]
  | cons c rest ih =>
    have harith : (c :: rest).length + k = (rest.length + k) + 1 := by
      simp [List.length_cons]
      omega
    rw [List.cons_append, harith]
    exact ih

/-- The scan finds nothing in a string free of the pattern's first
character. -/
theorem scanSkip_nil_of_head_notin (c0 : Char) (pr : Str) (s : Str)
    (hs : ∀ c ∈ s, c ≠ c0) : scanSkip (c0 :: pr) s 0 = [] := by
  induction s with
  | nil => rfl
  | cons c rest ih =>
    have hc : c ≠ c0 := hs c (List.mem_cons_self c rest)
    have hpfx : isPfx (c0 :: pr) (c :: rest) = false := by
      have : (c0 == c) = false := by
        simp [Ne.symm hc]
      simp [isPfx, this]
    have hr := ih (fun x hx => hs x (List.mem_cons_of_mem c hx))
    simp [scanSkip, hpfx, hr]

/-- The global-regex scan over `pre ++ pattern ++ seg ++ '\n' ++ post`
captures exactly `seg` when the pattern's first character occurs in neither
`pre` nor `post` and `seg` is a nonempty newline-free run. -/
theorem scanSkip_marker (pr pre seg post : Str)
    (hpre : ∀ c ∈ pre, c ≠ 'C') (hpost : ∀ c ∈ post, c ≠ 'C')
    (hseg : ∀ c ∈ seg, c ≠ '\n') (hsegne : seg ≠ []) :
    scanSkip ('C' :: pr) (pre ++ (('C' :: pr) ++ (seg ++ '\n' :: post))) 0 = [seg] := by
  induction pre with
  | cons c rest ih =>
    have hc : c ≠ 'C' := hpre c (List.mem_cons_self c rest)
    have hpfx : isPfx ('C' :: pr) (c :: (rest ++ (('C' :: pr) ++ (seg ++ '\n' :: post)))) = false := by
      have hbe : ('C' == c) = false := by
        simp [Ne.symm hc]
      simp [isPfx, hbe]
    rw [List.cons_append]
    simp only [scanSkip, hpfx, Bool.false_eq_true, if_false]
    exact ih (fun x hx => hpre x (List.mem_cons_of_mem c hx))
  | nil =>
    rcases seg with _ | ⟨g, gs⟩
    · exact absurd rfl hsegne
    simp only [List.nil_append]
    rw [List.cons_append]
    have hpfx : isPfx ('C' :: pr) ('C' :: (pr ++ ((g :: gs) ++ '\n' :: post))) = true := by
      have h0 := isPfx_append_self ('C' :: pr) ((g :: gs) ++ '\n' :: post)
      rw [List.cons_append] at h0
      exact h0
    have hdrop : (('C' :: (pr ++ ((g :: gs) ++ '\n' :: post)))).drop ('C' :: pr).length =
        (g :: gs) ++ '\n' :: post := by
      have h0 := List.drop_left ('C' :: pr) ((g :: gs) ++ '\n' :: post)
      rw [List.cons_append] at h0
      exact h0
    have htw : ((g :: gs) ++ '\n' :: post).takeWhile (fun x => !(x == '\n')) = g :: gs :=
      takeWhile_until_newline (g :: gs) post hseg
    simp only [scanSkip, hpfx, if_true, hdrop, htw]
    have harith : ('C' :: pr).length + (g :: gs).length - 1 = (pr ++ (g :: gs)).length + 0 := by
      simp [List.length_cons, List.length_append]
      omega
    have hres : pr ++ ((g :: gs) ++ '\n' :: post) = (pr ++ (g :: gs)) ++ '\n' :: post := by
      rw [List.append_assoc]
    rw [harith, hres, scanSkip_skip]
    rw [scanSkip_nil_of_head_notin 'C' pr ('\n' :: post) ?hnl]
    case hnl =>
      intro c hc
      rcases List.mem_cons.mp hc with h | h
      · subst h
        decide
      · exact hpost c h

/-- `recordCredential` on an existing mysql entry assigns into it. -/
theorem recordCredential_mysql_some (m : CredMap) (e : KVList) (k v : Str) (hk : k ≠ [])
    (he : alookup m (str "mysql") = some e) :
    recordCredential m (str "mysql") k v = setVal m (str "mysql") (setVal e k v) := by
  have hguard : ¬(str "mysql" = [] ∨ k = []) := by
    rintro (h | h)
    · exact absurd h (by decide)
    · exact hk h
  have hns : lowerStr (str "mysql") = str "mysql" := by decide
  simp only [recordCredential, if_neg hguard, hns, he, Option.getD_some]

/-- `recordCredential` on a missing mysql entry first seeds it from the
credential defaults, then assigns into the seeded entry. -/
theorem recordCredential_mysql_none (m : CredMap) (k v : Str) (hk : k ≠ [])
    (he : alookup m (str "mysql") = none) :
    recordCredential m (str "mysql") k v =
      setVal (m ++ [(str "mysql", [(str "path", str "/tmp/mysql_credentials.txt")])])
        (str "mysql")
        (setVal [(str "path", str "/tmp/mysql_credentials.txt")] k v) := by
  have hguard : ¬(str "mysql" = [] ∨ k = []) := by
    rintro (h | h)
    · exact absurd h (by decide)
    · exact hk h
  have hns : lowerStr (str "mysql") = str "mysql" := by decide
  have hdef : (credentialDefaultsJS (str "mysql")).getD [] =
      [(str "path", str "/tmp/mysql_credentials.txt")] := by decide
  have hap := alookup_append_self m (str "mysql")
    [(str "path", str "/tmp/mysql_credentials.txt")] he
  simp only [recordCredential, if_neg hguard, hns, he, hdef, hap, Option.getD_some]
-- draft appended to a copy of the main file for iteration
/-- Normal form of the stdout buffer around the split marker. -/
theorem stdout_marker_normal_form (pre post u p : Str) :
    pre ++ str "CREDENTIALS|mysql|username=" ++ u ++ str "|password=" ++ p ++ '\n' :: post =
    pre ++ (('C' :: str "REDENTIALS|mysql|") ++
      ((str "username=" ++ (u ++ ('|' :: (str "password=" ++ p)))) ++ '\n' :: post)) := by
  have h1 : str "CREDENTIALS|mysql|username=" =
      ('C' :: str "REDENTIALS|mysql|") ++ str "username=" := by decide
  have h2 : str "|password=" = '|' :: str "password=" := by decide
  rw [h1, h2]
  simp [List.append_assoc]
/-- The fallback scan over a buffer holding one split marker records the
marker's username and password into the service entry. -/
theorem fallbackScan_split_marker (pre post u p : Str) (creds : CredMap)
    (hpre : ∀ c ∈ pre, c ≠ 'C') (hpost : ∀ c ∈ post, c ≠ 'C')
    (hu : ∀ c ∈ u, c ≠ '\n' ∧ c ≠ '|' ∧ c ≠ '=') (hune : u ≠ []) (hutrim : trimStr u = u)
    (hp2 : ∀ c ∈ p, c ≠ '\n' ∧ c ≠ '|' ∧ c ≠ '=') (hpne : p ≠ []) (hptrim : trimStr p = p)
    (hcred : alookup creds (str "mysql") = none ∨
      alookup creds (str "mysql") = some [(str "path", str "/tmp/mysql_credentials.txt")]) :
    ∃ M : CredMap,
      fallbackScan (str "mysql")
        (pre ++ (('C' :: str "REDENTIALS|mysql|") ++
          ((str "username=" ++ (u ++ ('|' :: (str "password=" ++ p)))) ++ '\n' :: post))) creds =
      setVal M (str "mysql")
        [(str "path", str "/tmp/mysql_credentials.txt"),
         (str "username", u), (str "password", p)] := by
  have hsegchars : ∀ c ∈ (str "username=" ++ (u ++ ('|' :: (str "password=" ++ p)))), c ≠ '\n' := by
    intro c hc
    simp only [List.mem_append, List.mem_cons] at hc
    rcases hc with hc | hc | hc | hc | hc
    · exact (by decide : ∀ c ∈ str "username=", c ≠ '\n') c hc
    · exact (hu c hc).1
    · subst hc
      decide
    · exact (by decide : ∀ c ∈ str "password=", c ≠ '\n') c hc
    · exact (hp2 c hc).1
  have hsegne : (str "username=" ++ (u ++ ('|' :: (str "password=" ++ p)))) ≠ [] := by
    exact List.append_ne_nil_of_left_ne_nil (by decide) _
  have hpat : str "CREDENTIALS|" ++ str "mysql" ++ ['|'] = 'C' :: str "REDENTIALS|mysql|" := by
    decide
  have hscan := scanSkip_marker (str "REDENTIALS|mysql|") pre
    (str "username=" ++ (u ++ ('|' :: (str "password=" ++ p)))) post hpre hpost hsegchars hsegne
  unfold fallbackScan scanCredMarkers
  rw [hpat, hscan]
  simp only [List.foldl_cons, List.foldl_nil]
  have hform : str "username=" ++ (u ++ ('|' :: (str "password=" ++ p))) =
      (str "username=" ++ u) ++ ('|' :: (str "password=" ++ p)) := by
    simp [List.append_assoc]
  have hnosep1 : ∀ c ∈ str "username=" ++ u, c ≠ '|' := by
    intro c hc
    rcases List.mem_append.mp hc with hc | hc
    · exact (by decide : ∀ c ∈ str "username=", c ≠ '|') c hc
    · exact (hu c hc).2.1
  have hnosep2 : ∀ c ∈ str "password=" ++ p, c ≠ '|' := by
    intro c hc
    rcases List.mem_append.mp hc with hc | hc
    · exact (by decide : ∀ c ∈ str "password=", c ≠ '|') c hc
    · exact (hp2 c hc).2.1
  have hsplitseg : splitChar '|' (str "username=" ++ (u ++ ('|' :: (str "password=" ++ p)))) =
      [str "username=" ++ u, str "password=" ++ p] := by
    rw [hform, splitChar_append_cons, splitChar_no_sep '|' _ hnosep1,
        splitChar_no_sep '|' _ hnosep2]
    rfl
  rw [hsplitseg]
  simp only [List.foldl_cons, List.foldl_nil]
  have hsp1 : splitChar '=' (str "username=" ++ u) = [str "username", u] := by
    have hf : str "username=" ++ u = str "username" ++ ('=' :: u) := by
      have h9 : str "username=" = str "username" ++ ['='] := by decide
      rw [h9]
      simp [List.append_assoc]
    rw [hf, splitChar_append_cons, splitChar_no_sep '=' (str "username") (by decide),
        splitChar_no_sep '=' u (fun c hc => (hu c hc).2.2)]
    rfl
  have hsp2 : splitChar '=' (str "password=" ++ p) = [str "password", p] := by
    have hf : str "password=" ++ p = str "password" ++ ('=' :: p) := by
      have h9 : str "password=" = str "password" ++ ['='] := by decide
      rw [h9]
      simp [List.append_assoc]
    rw [hf, splitChar_append_cons, splitChar_no_sep '=' (str "password") (by decide),
        splitChar_no_sep '=' p (fun c hc => (hp2 c hc).2.2)]
    rfl
  have happly1 : ∀ M : CredMap, applyMarkerSegment (str "mysql") M (str "username=" ++ u) =
      recordCredential M (str "mysql") (str "username") u := by
    intro M
    unfold applyMarkerSegment
    rw [hsp1]
    show (if str "username" ≠ [] ∧ u ≠ [] then
        recordCredential M (str "mysql") (trimStr (str "username")) (trimStr u) else M) = _
    rw [if_pos ⟨by decide, hune⟩, hutrim,
        (by decide : trimStr (str "username") = str "username")]
  have happly2 : ∀ M : CredMap, applyMarkerSegment (str "mysql") M (str "password=" ++ p) =
      recordCredential M (str "mysql") (str "password") p := by
    intro M
    unfold applyMarkerSegment
    rw [hsp2]
    show (if str "password" ≠ [] ∧ p ≠ [] then
        recordCredential M (str "mysql") (trimStr (str "password")) (trimStr p) else M) = _
    rw [if_pos ⟨by decide, hpne⟩, hptrim,
        (by decide : trimStr (str "password") = str "password")]
  rw [happly1, happly2]
  have hE1 : setVal [(str "path", str "/tmp/mysql_credentials.txt")] (str "username") u =
      [(str "path", str "/tmp/mysql_credentials.txt"), (str "username", u)] := by
    simp [setVal, show ¬(str "path" = str "username") from by decide]
  have hE2 : setVal [(str "path", str "/tmp/mysql_credentials.txt"), (str "username", u)]
      (str "password") p =
      [(str "path", str "/tmp/mysql_credentials.txt"), (str "username", u),
       (str "password", p)] := by
    simp [setVal, show ¬(str "path" = str "password") from by decide,
      show ¬(str "username" = str "password") from by decide]
  rcases hcred with hc0 | hc0
  · rw [recordCredential_mysql_none creds (str "username") u (by decide) hc0]
    have h1 := alookup_setVal_self
      (creds ++ [(str "mysql", [(str "path", str "/tmp/mysql_credentials.txt")])])
      (str "mysql")
      (setVal [(str "path", str "/tmp/mysql_credentials.txt")] (str "username") u)
    rw [recordCredential_mysql_some _ _ (str "password") p (by decide) h1]
    rw [hE1, hE2]
    exact ⟨_, rfl⟩
  · rw [recordCredential_mysql_some creds _ (str "username") u (by decide) hc0]
    have h1 := alookup_setVal_self creds (str "mysql")
      (setVal [(str "path", str "/tmp/mysql_credentials.txt")] (str "username") u)
    rw [recordCredential_mysql_some _ _ (str "password") p (by decide) h1]
    rw [hE1, hE2]
    exact ⟨_, rfl⟩
/-- C5 (amended): after a process exit with code 0 or 2, when the run's
mysql credential set is still empty or holds only the default placeholder
path, the legacy close handler re-scans the entire retained stdout buffer —
the concatenation of the received chunks, wherever the chunk boundary fell —
for the service's `CREDENTIALS|` marker, so a marker split across two
chunks is recovered into the resolved result's credentials. -/
theorem fallback_scan_recovers_split_marker
    (c1 c2 pre post u p stderr : Str) (creds : CredMap) (code : Int)
    (hchunks : c1 ++ c2 =
      pre ++ str "CREDENTIALS|mysql|username=" ++ u ++ str "|password=" ++ p ++ '\n' :: post)
    (hcode : code = 0 ∨ code = 2)
    (hpre : ∀ c ∈ pre, c ≠ 'C') (hpost : ∀ c ∈ post, c ≠ 'C')
    (hu : ∀ c ∈ u, c ≠ '\n' ∧ c ≠ '|' ∧ c ≠ '=') (hune : u ≠ []) (hutrim : trimStr u = u)
    (hp2 : ∀ c ∈ p, c ≠ '\n' ∧ c ≠ '|' ∧ c ≠ '=') (hpne : p ≠ []) (hptrim : trimStr p = p)
    (hcred : alookup creds (str "mysql") = none ∨
      alookup creds (str "mysql") = some [(str "path", str "/tmp/mysql_credentials.txt")]) :
    settledIsRejected (closeHandlerV (some (str "mysql")) code (c1 ++ c2) stderr creds) = false ∧
    settledCredLookup (closeHandlerV (some (str "mysql")) code (c1 ++ c2) stderr creds)
      (str "mysql") (str "username") = some u ∧
    settledCredLookup (closeHandlerV (some (str "mysql")) code (c1 ++ c2) stderr creds)
      (str "mysql") (str "password") = some p := by
  obtain ⟨M, hM⟩ := fallbackScan_split_marker pre post u p creds hpre hpost hu hune hutrim
    hp2 hpne hptrim hcred
  have hS : c1 ++ c2 = pre ++ (('C' :: str "REDENTIALS|mysql|") ++
      ((str "username=" ++ (u ++ ('|' :: (str "password=" ++ p)))) ++ '\n' :: post)) := by
    rw [hchunks]
    exact stdout_marker_normal_form pre post u p
  rw [hS]
  have hcondfb : alookup creds (str "mysql") = none ∨
      ((alookup creds (str "mysql")).getD []).length ≤ 1 := by
    rcases hcred with h | h
    · exact Or.inl h
    · right
      rw [h]
      decide
  have hlookE2 := alookup_setVal_self M (str "mysql")
    [(str "path", str "/tmp/mysql_credentials.txt"), (str "username", u), (str "password", p)]
  have hmerge : mergeObj [(str "path", str "/tmp/mysql_credentials.txt")]
      [(str "path", str "/tmp/mysql_credentials.txt"), (str "username", u), (str "password", p)] =
      [(str "path", str "/tmp/mysql_credentials.txt"), (str "username", u), (str "password", p)] := by
    simp [mergeObj, alookup,
      show ¬(str "path" = str "username") from by decide,
      show ¬(str "path" = str "password") from by decide]
  have happd : applyCredentialDefaults (some (str "mysql"))
      (setVal M (str "mysql")
        [(str "path", str "/tmp/mysql_credentials.txt"), (str "username", u), (str "password", p)]) =
      setVal (setVal M (str "mysql")
        [(str "path", str "/tmp/mysql_credentials.txt"), (str "username", u), (str "password", p)])
        (str "mysql")
        [(str "path", str "/tmp/mysql_credentials.txt"), (str "username", u), (str "password", p)] := by
    simp only [applyCredentialDefaults]
    rw [(by decide : credentialDefaultsJS (str "mysql") =
      some [(str "path", str "/tmp/mysql_credentials.txt")])]
    rw [hlookE2]
    simp only [Option.getD_some]
    rw [hmerge]
  have hres : closeHandlerV (some (str "mysql")) code
      (pre ++ (('C' :: str "REDENTIALS|mysql|") ++
        ((str "username=" ++ (u ++ ('|' :: (str "password=" ++ p)))) ++ '\n' :: post)))
      stderr creds =
      Settled.resolved (ExecResult.mk true
        (pre ++ (('C' :: str "REDENTIALS|mysql|") ++
          ((str "username=" ++ (u ++ ('|' :: (str "password=" ++ p)))) ++ '\n' :: post)))
        stderr
        (some (setVal (setVal M (str "mysql")
          [(str "path", str "/tmp/mysql_credentials.txt"), (str "username", u),
           (str "password", p)]) (str "mysql")
          [(str "path", str "/tmp/mysql_credentials.txt"), (str "username", u),
           (str "password", p)]))
        none none none) := by
    simp only [closeHandlerV]
    rw [if_pos hcode, if_pos hcondfb, hM, happd]
  rw [hres]
  have hlookfinal := alookup_setVal_self (setVal M (str "mysql")
    [(str "path", str "/tmp/mysql_credentials.txt"), (str "username", u), (str "password", p)])
    (str "mysql")
    [(str "path", str "/tmp/mysql_credentials.txt"), (str "username", u), (str "password", p)]
  refine ⟨rfl, ?_, ?_⟩
  · simp only [settledCredLookup, settledCredentials, Option.getD_some, hlookfinal]
    simp [alookup,
      show ¬(str "path" = str "username") from by decide]
  · simp only [settledCredLookup, settledCredentials, Option.getD_some, hlookfinal]
    simp [alookup,
      show ¬(str "path" = str "password") from by decide,
      show ¬(str "username" = str "password") from by decide]

/-- Witness for C5 at a concrete marker split mid-service-name across two
chunks, recovered by the fallback pass on exit code 0. -/
theorem fallback_scan_recovers_split_marker_witness :
    (str "CREDENTIALS|mys" ++ str "ql|username=stackbill|password=S3cret\n" =
      [] ++ str "CREDENTIALS|mysql|username=" ++ str "stackbill" ++ str "|password=" ++
        str "S3cret" ++ '\n' :: []) ∧
    ((0 : Int) = 0 ∨ (0 : Int) = 2) ∧
    (settledIsRejected (closeHandlerV (some (str "mysql")) 0
        (str "CREDENTIALS|mys" ++ str "ql|username=stackbill|password=S3cret\n") [] []) =
          false ∧
     settledCredLookup (closeHandlerV (some (str "mysql")) 0
        (str "CREDENTIALS|mys" ++ str "ql|username=stackbill|password=S3cret\n") [] [])
        (str "mysql") (str "username") = some (str "stackbill") ∧
     settledCredLookup (closeHandlerV (some (str "mysql")) 0
        (str "CREDENTIALS|mys" ++ str "ql|username=stackbill|password=S3cret\n") [] [])
        (str "mysql") (str "password") = some (str "S3cret")) :=
  ⟨by decide, Or.inl rfl,
   fallback_scan_recovers_split_marker (str "CREDENTIALS|mys")
     (str "ql|username=stackbill|password=S3cret\n") [] [] (str "stackbill") (str "S3cret")
     [] [] 0 (by decide) (Or.inl rfl) (by decide) (by decide) (by decide) (by decide)
     (by decide) (by decide) (by decide) (by decide) (Or.inl (by decide))⟩
